import Mathlib

/-!
Shallow embedding of the Link-Shortener-Bun service (src/index.ts) and proofs
of the specification claims about it.

The service is an HTTP link shortener backed by a single SQLite table
`links (id, short_code UNIQUE, original_url, created_at, clicks)`.  We embed
the table as a `List Link` (rows in insertion order, matching SQLite's
autoincrement append) and the in-memory `validTokens : Set<string>` as a
`List String` with `List.insert` (membership semantics of a JS `Set`).

Randomness (`Math.random` inside `generateShortCode` / `generateToken`) is
modelled as an oracle: each request carries the stream of candidate codes
(`cands : Nat → String`) or the fresh token it would generate.  The JS `URL`
constructor used by `isValidUrl` is a host-library call, so URL validity is an
abstract boolean `Config.validUrl` supplied to the handlers.
-/

namespace LinkShortener

/-- A row of the `links` table (src/index.ts lines 42-50).  `created_at` is an
abstract timestamp (larger = later); `id` is the position in the list. -/
structure Link where
  short_code : String
  original_url : String
  created_at : Nat
  clicks : Nat
deriving DecidableEq, Repr

/-- The mutable state of the process: the `links` table and the in-memory
`validTokens` set (src/index.ts line 76). -/
structure ServerState where
  store : List Link
  validTokens : List String
deriving DecidableEq, Repr

/-- Environment configuration: `BASE_URL`, `ADMIN_PASSWORD`, and the abstract
URL validity test implemented by `new URL(...)` (src/index.ts lines 63-70). -/
structure Config where
  validUrl : String → Bool
  baseUrl : String
  adminPw : String

/-- The possible HTTP responses of the handlers, with their JSON payloads. -/
inductive Resp where
  | okShorten (short_code short_url original_url : String)
  | okToken (token : String)
  | okLink (l : Link)
  | okList (links : List Link) (page limit total totalPages totalLinks totalClicks : Nat)
  | okMsg (msg : String)
  | redirect302 (target : String)
  | err (status : Nat) (msg : String)
deriving DecidableEq, Repr

/-- HTTP status code of a response. -/
def respStatus : Resp → Nat
  | .redirect302 _ => 302
  | .err s _ => s
  | _ => 200

/-- `SELECT id FROM links WHERE short_code = ?` used as a truthiness test
(src/index.ts lines 130, 209). -/
def existsCode (store : List Link) (c : String) : Bool :=
  (store.find? (fun l => l.short_code == c)).isSome

/-- The retry cap of the code-generation loop (src/index.ts line 124). -/
def maxAttempts : Nat := 10

/-- The do/while code-generation loop of `POST /shorten`
(src/index.ts lines 126-132):

    do { shortCode = generateShortCode(); attempts++ }
    while (exists(shortCode) && attempts < maxAttempts)

`cands i` is the i-th candidate produced by `generateShortCode`.  Returns the
final `(shortCode, attempts)`.  `fuel` only bounds the recursion; calls start
with `fuel = maxAttempts`, which is never exhausted because the loop guard
requires `attempts < maxAttempts`. -/
def genLoop (store : List Link) (cands : Nat → String) : Nat → Nat → String × Nat
  | attempts, 0 => (cands attempts, attempts + 1)
  | attempts, fuel + 1 =>
    if existsCode store (cands attempts) ∧ attempts + 1 < maxAttempts
    then genLoop store cands (attempts + 1) fuel
    else (cands attempts, attempts + 1)

/-- `POST /shorten` (src/index.ts lines 108-153).  `url = none` models a body
without a `url` field; an empty string is falsy in JS, so both hit the
`if (!url)` branch.  `now` is the `created_at` the database assigns. -/
def shortenHandler (cfg : Config) (cands : Nat → String) (now : Nat)
    (url : Option String) (st : ServerState) : Resp × ServerState :=
  let u := url.getD ""
  if u = "" then (.err 400 "URL is required", st)
  else if cfg.validUrl u = false then (.err 400 "Invalid URL format", st)
  else
    let r := genLoop st.store cands 0 maxAttempts
    if maxAttempts ≤ r.2 then (.err 500 "Failed to generate unique short code", st)
    else (.okShorten r.1 (cfg.baseUrl ++ "/" ++ r.1) u,
          { st with store := st.store ++ [⟨r.1, u, now, 0⟩] })

/-- `authHeader.startsWith('Bearer ')` (src/index.ts line 88), over the
character data of the strings. -/
def strStartsWith (s pat : String) : Bool := pat.data.isPrefixOf s.data

/-- `authHeader.substring(7)` (src/index.ts line 91). -/
def strDrop (s : String) (n : Nat) : String := String.mk (s.data.drop n)

/-- `validateToken` (src/index.ts lines 87-93): the header must exist, start
with `"Bearer "`, and the rest must be in the valid-token set. -/
def validateToken (authHeader : Option String) (toks : List String) : Bool :=
  match authHeader with
  | none => false
  | some h => strStartsWith h "Bearer " && toks.contains (strDrop h 7)

/-- Membership in the character class `[a-zA-Z0-9_-]` of the slug regex
(src/index.ts line 97). -/
def isSlugChar (c : Char) : Bool :=
  ('a' ≤ c && c ≤ 'z') || ('A' ≤ c && c ≤ 'Z') || ('0' ≤ c && c ≤ '9') || c == '_' || c == '-'

/-- The test `/^[a-zA-Z0-9_-]+$/.test(slug)`: every character in the class and
at least one character. -/
def slugRegexTest (s : String) : Bool :=
  !s.data.isEmpty && s.data.all isSlugChar

/-- `isValidSlug` (src/index.ts lines 96-98). -/
def isValidSlug (s : String) : Bool :=
  slugRegexTest s && decide (1 ≤ s.length) && decide (s.length ≤ 50)

/-- `POST /admin/auth` (src/index.ts lines 163-178).  `freshToken` is the
token `generateToken()` would mint; a missing `password` field compares
unequal to the admin password, giving 401. -/
def adminAuthHandler (cfg : Config) (freshToken : String) (password : Option String)
    (st : ServerState) : Resp × ServerState :=
  if password = some cfg.adminPw then
    (.okToken freshToken, { st with validTokens := st.validTokens.insert freshToken })
  else (.err 401 "Invalid password", st)

/-- `POST /admin/create` (src/index.ts lines 181-229). -/
def adminCreateHandler (cfg : Config) (now : Nat) (authHeader url slug : Option String)
    (st : ServerState) : Resp × ServerState :=
  if validateToken authHeader st.validTokens = false then (.err 401 "Unauthorized", st)
  else
    let u := url.getD ""
    if u = "" then (.err 400 "URL is required", st)
    else if cfg.validUrl u = false then (.err 400 "Invalid URL format", st)
    else
      let sl := slug.getD ""
      if sl = "" then (.err 400 "Slug is required", st)
      else if isValidSlug sl = false then
        (.err 400 "Invalid slug format. Use only letters, numbers, hyphens, and underscores (1-50 chars)", st)
      else if existsCode st.store sl then (.err 409 "This slug is already taken", st)
      else (.okShorten sl (cfg.baseUrl ++ "/" ++ sl) u,
            { st with store := st.store ++ [⟨sl, u, now, 0⟩] })

/-- `UPDATE links SET clicks = clicks + 1 WHERE short_code = ?`
(src/index.ts line 247). -/
def incClicks (code : String) (store : List Link) : List Link :=
  store.map (fun l => if l.short_code == code then { l with clicks := l.clicks + 1 } else l)

/-- `GET /:code` (src/index.ts lines 232-251).  `.get` returns the first
matching row, modelled by `List.find?`. -/
def redirectHandler (code : String) (st : ServerState) : Resp × ServerState :=
  if code = "" then (.err 400 "Short code is required", st)
  else
    match st.store.find? (fun l => l.short_code == code) with
    | none => (.err 404 "Short link not found", st)
    | some l => (.redirect302 l.original_url, { st with store := incClicks code st.store })

/-- `GET /stats/:code` (src/index.ts lines 254-272). -/
def statsHandler (code : String) (st : ServerState) : Resp × ServerState :=
  if code = "" then (.err 400 "Short code is required", st)
  else
    match st.store.find? (fun l => l.short_code == code) with
    | none => (.err 404 "Short link not found", st)
    | some l => (.okLink l, st)

/-- Numeric value of a digit string, most significant first. -/
def digitsVal (ds : List Char) : Nat :=
  ds.foldl (fun acc c => acc * 10 + (c.toNat - '0'.toNat)) 0

/-- Longest leading run of decimal digits; `none` when there is none. -/
def parseDigits (cs : List Char) : Option Nat :=
  let ds := cs.takeWhile Char.isDigit
  if ds.isEmpty then none else some (digitsVal ds)

/-- JS `parseInt(s, 10)`: skip leading whitespace, optional sign, then the
longest decimal-digit run; `none` models `NaN` (src/index.ts lines 283-284). -/
def parseIntJs (s : String) : Option Int :=
  let cs := s.data.dropWhile Char.isWhitespace
  match cs with
  | '-' :: rest => (parseDigits rest).map (fun n => -(n : Int))
  | '+' :: rest => (parseDigits rest).map (fun n => (n : Int))
  | _ => (parseDigits cs).map (fun n => (n : Int))

/-- `c.req.query(k) || d`: a missing or empty query parameter falls back to
the default (JS falsiness of `undefined` and `""`). -/
def orDefault (q : Option String) (d : String) : String :=
  match q with
  | none => d
  | some s => if s = "" then d else s

/-- SQLite `LIKE '%pat%'`: case-insensitive substring containment
(src/index.ts lines 298-306). -/
def likeMatch (pat s : String) : Bool :=
  decide (pat.toLower.data <:+: s.toLower.data)

/-- The optional `WHERE short_code LIKE ? OR original_url LIKE ?` filter of
`GET /admin/links`; an empty search string is falsy, so no filter applies. -/
def filterLinks (search : String) (store : List Link) : List Link :=
  if search = "" then store
  else store.filter (fun l => likeMatch search l.short_code || likeMatch search l.original_url)

/-- The comparator realising `ORDER BY created_at DESC`. -/
def byCreatedDesc (a b : Link) : Bool := decide (b.created_at ≤ a.created_at)

/-- `ORDER BY created_at DESC` over the whole table. -/
def sortByCreatedDesc (store : List Link) : List Link :=
  store.mergeSort byCreatedDesc

/-- `SELECT SUM(clicks) FROM links`, with `?? 0` turning the NULL sum of an
empty table into 0 (src/index.ts lines 318, 330). -/
def sumClicks (store : List Link) : Nat := (store.map Link.clicks).sum

/-- `Math.ceil(total / limit)` (src/index.ts line 326): the exact ceiling of
the rational quotient. -/
def mathCeilDiv (a b : Nat) : Nat := ⌈(a : ℚ) / (b : ℚ)⌉₊

/-- `GET /admin/links` (src/index.ts lines 275-333). -/
def adminLinksHandler (authHeader pageQ limitQ searchQ : Option String)
    (st : ServerState) : Resp × ServerState :=
  if validateToken authHeader st.validTokens = false then (.err 401 "Unauthorized", st)
  else
    match parseIntJs (orDefault pageQ "1"), parseIntJs (orDefault limitQ "50") with
    | some p, some l =>
      if p < 1 ∨ l < 1 then (.err 400 "Invalid pagination parameters", st)
      else
        let pN := p.toNat
        let lN := l.toNat
        let offset := (pN - 1) * lN
        let filtered := filterLinks (orDefault searchQ "") st.store
        let links := ((sortByCreatedDesc filtered).drop offset).take lN
        (.okList links pN lN filtered.length (mathCeilDiv filtered.length lN)
          filtered.length (sumClicks st.store), st)
    | _, _ => (.err 400 "Invalid pagination parameters", st)

/-- One request to the service: each constructor carries the request data plus
the oracle inputs (candidate codes, fresh token, timestamp) its handler uses. -/
inductive Op where
  | shortenReq (cands : Nat → String) (now : Nat) (url : Option String)
  | authReq (freshToken : String) (password : Option String)
  | createReq (now : Nat) (authHeader url slug : Option String)
  | redirectReq (code : String)
  | statsReq (code : String)
  | listReq (authHeader pageQ limitQ searchQ : Option String)
  | rootReq

/-- Dispatch of one request to its handler (the route table of src/index.ts). -/
def step (cfg : Config) (op : Op) (st : ServerState) : Resp × ServerState :=
  match op with
  | .shortenReq cands now url => shortenHandler cfg cands now url st
  | .authReq t pw => adminAuthHandler cfg t pw st
  | .createReq now h u s => adminCreateHandler cfg now h u s st
  | .redirectReq c => redirectHandler c st
  | .statsReq c => statsHandler c st
  | .listReq h p l q => adminLinksHandler h p l q st
  | .rootReq => (.okMsg "Link Shortener API is running!", st)

/-- Run a sequence of requests, keeping only the evolving state. -/
def runTrace (cfg : Config) (ops : List Op) (st : ServerState) : ServerState :=
  ops.foldl (fun s op => (step cfg op s).2) st

/-- The tokens handed out by successful `/admin/auth` logins in a trace. -/
def issuedTokens (cfg : Config) (ops : List Op) : List String :=
  ops.filterMap (fun op =>
    match op with
    | .authReq t pw => if pw = some cfg.adminPw then some t else none
    | _ => none)

/-- Iterated redirect requests for one code (for click counting). -/
def redirectN (code : String) (st : ServerState) : Nat → ServerState
  | 0 => st
  | n + 1 => (redirectHandler code (redirectN code st n)).2

/-- The table's short codes are pairwise distinct (`short_code TEXT UNIQUE`). -/
def codesNodup (s : List Link) : Prop := (s.map Link.short_code).Nodup

/-- Rows survive an operation in place: nothing is deleted, `short_code`,
`original_url` and `created_at` of an existing row never change, and `clicks`
never decreases. -/
def rowsPreserved (s s' : List Link) : Prop :=
  s.length ≤ s'.length ∧
  ∀ i (hi : i < s.length) (hi' : i < s'.length),
    (s'.get ⟨i, hi'⟩).short_code = (s.get ⟨i, hi⟩).short_code ∧
    (s'.get ⟨i, hi'⟩).original_url = (s.get ⟨i, hi⟩).original_url ∧
    (s'.get ⟨i, hi'⟩).created_at = (s.get ⟨i, hi⟩).created_at ∧
    (s.get ⟨i, hi⟩).clicks ≤ (s'.get ⟨i, hi'⟩).clicks

end LinkShortener

namespace LinkShortener

/-- Fixture: configuration with the default `BASE_URL` and `ADMIN_PASSWORD`
and a URL validator that accepts everything. -/
def cfgDef : Config :=
  { validUrl := fun _ => true, baseUrl := "http://localhost:3000", adminPw := "doppy" }

/-- Fixture: a store whose rows carry the codes `c0` … `c8`. -/
def st9 : ServerState :=
  { store := [⟨"c0", "https://a.example", 0, 0⟩, ⟨"c1", "https://a.example", 0, 0⟩,
              ⟨"c2", "https://a.example", 0, 0⟩, ⟨"c3", "https://a.example", 0, 0⟩,
              ⟨"c4", "https://a.example", 0, 0⟩, ⟨"c5", "https://a.example", 0, 0⟩,
              ⟨"c6", "https://a.example", 0, 0⟩, ⟨"c7", "https://a.example", 0, 0⟩,
              ⟨"c8", "https://a.example", 0, 0⟩],
    validTokens := [] }

/-- Fixture: a candidate stream whose first nine candidates are exactly the
stored codes of `st9` and whose tenth candidate is fresh. -/
def cands9 : Nat → String :=
  fun i => List.getD ["c0", "c1", "c2", "c3", "c4", "c5", "c6", "c7", "c8", "fresh"] i "x"

/-- Fixture: a store holding one link and one issued admin token. -/
def stEx : ServerState :=
  { store := [⟨"abc", "https://example.com", 5, 0⟩], validTokens := ["tok"] }

/-- The spec's slug character class: ASCII letter, digit, hyphen or
underscore. -/
def isSlugCharSpec (c : Char) : Prop :=
  ('a' ≤ c ∧ c ≤ 'z') ∨ ('A' ≤ c ∧ c ≤ 'Z') ∨ ('0' ≤ c ∧ c ≤ '9') ∨ c = '_' ∨ c = '-'

/-- Fixture: a three-row store (created at times 1, 3, 2) with an issued
admin token. -/
def st3 : ServerState :=
  { store := [⟨"a", "https://one.example", 1, 0⟩, ⟨"b", "https://two.example", 3, 2⟩,
              ⟨"c", "https://three.example", 2, 1⟩],
    validTokens := ["tok"] }

/-! ### Helper lemmas -/

theorem existsCode_eq_false_iff (s : List Link) (c : String) :
    existsCode s c = false ↔ ∀ l ∈ s, l.short_code ≠ c := by
  unfold existsCode
  rw [Bool.eq_false_iff, Ne, Option.isSome_iff_exists]
  push_neg
  constructor
  · intro h l hl he
    rcases List.find?_eq_none.mp (Option.eq_none_iff_forall_not_mem.mpr
      (fun a ha => h a ha)) l hl with hn
    exact hn (by simp [he])
  · intro h a ha
    have := List.find?_some ha
    have hm := List.mem_of_find?_eq_some ha
    exact absurd (by simpa using this) (h a hm)

theorem genLoop_all_collide (store : List Link) (cands : Nat → String) :
    ∀ fuel a, a + fuel = maxAttempts → a < maxAttempts →
    (∀ i, a ≤ i → i < maxAttempts - 1 → existsCode store (cands i) = true) →
    genLoop store cands a fuel = (cands (maxAttempts - 1), maxAttempts) := by
  intro fuel
  induction fuel with
  | zero =>
    intro a hf ha _
    exact absurd hf (by omega)
  | succ f ih =>
    intro a hf ha hall
    by_cases h9 : a < maxAttempts - 1
    · have hex : existsCode store (cands a) = true := hall a le_rfl h9
      show (if existsCode store (cands a) ∧ a + 1 < maxAttempts
            then genLoop store cands (a + 1) f else (cands a, a + 1)) = _
      rw [if_pos ⟨by simp [hex], by unfold maxAttempts at *; omega⟩]
      exact ih (a + 1) (by omega) (by unfold maxAttempts at *; omega)
        (fun i hi1 hi2 => hall i (by omega) hi2)
    · have ha9 : a = maxAttempts - 1 := by unfold maxAttempts at *; omega
      show (if existsCode store (cands a) ∧ a + 1 < maxAttempts
            then genLoop store cands (a + 1) f else (cands a, a + 1)) = _
      rw [if_neg (by rintro ⟨-, hlt⟩; unfold maxAttempts at *; omega)]
      rw [ha9]
      have : maxAttempts - 1 + 1 = maxAttempts := by unfold maxAttempts; omega
      rw [this]

theorem genLoop_first_fresh (store : List Link) (cands : Nat → String) (i₀ : Nat)
    (hi₀ : i₀ < maxAttempts - 1)
    (hfresh : existsCode store (cands i₀) = false)
    (hprev : ∀ j, j < i₀ → existsCode store (cands j) = true) :
    ∀ fuel a, a + fuel = maxAttempts → a ≤ i₀ →
    genLoop store cands a fuel = (cands i₀, i₀ + 1) := by
  intro fuel
  induction fuel with
  | zero =>
    intro a hf ha
    exact absurd hf (by unfold maxAttempts at *; omega)
  | succ f ih =>
    intro a hf ha
    rcases eq_or_lt_of_le ha with rfl | hlt
    · show (if existsCode store (cands a) ∧ a + 1 < maxAttempts
            then genLoop store cands (a + 1) f else (cands a, a + 1)) = _
      rw [if_neg (by rintro ⟨hex, -⟩; rw [hfresh] at hex; exact absurd hex (by simp))]
    · have hex := hprev a hlt
      show (if existsCode store (cands a) ∧ a + 1 < maxAttempts
            then genLoop store cands (a + 1) f else (cands a, a + 1)) = _
      rw [if_pos ⟨by simp [hex], by unfold maxAttempts at *; omega⟩]
      exact ih (a + 1) (by omega) (by omega)

theorem genLoop_fresh_of_success (store : List Link) (cands : Nat → String) :
    ∀ fuel a, a + fuel = maxAttempts → a < maxAttempts →
    (genLoop store cands a fuel).2 < maxAttempts →
    existsCode store (genLoop store cands a fuel).1 = false := by
  intro fuel
  induction fuel with
  | zero =>
    intro a hf ha
    exact absurd hf (by omega)
  | succ f ih =>
    intro a hf ha
    show (genLoop store cands a (f + 1)).2 < maxAttempts →
      existsCode store (genLoop store cands a (f + 1)).1 = false
    by_cases hc : existsCode store (cands a) ∧ a + 1 < maxAttempts
    · have he : genLoop store cands a (f + 1) = genLoop store cands (a + 1) f := by
        show (if existsCode store (cands a) ∧ a + 1 < maxAttempts
              then genLoop store cands (a + 1) f else (cands a, a + 1)) = _
        rw [if_pos hc]
      rw [he]
      exact ih (a + 1) (by omega) hc.2
    · have he : genLoop store cands a (f + 1) = (cands a, a + 1) := by
        show (if existsCode store (cands a) ∧ a + 1 < maxAttempts
              then genLoop store cands (a + 1) f else (cands a, a + 1)) = _
        rw [if_neg hc]
      rw [he]
      intro hlt
      rcases Decidable.not_and_iff_or_not.mp hc with hne | hge
      · exact Bool.not_eq_true _ ▸ Bool.eq_false_iff.mpr (fun he' => hne (by simp [he']))
      · exact absurd hlt hge

end LinkShortener

namespace LinkShortener

theorem shortenHandler_valid_eq (cfg : Config) (cands : Nat → String) (now : Nat)
    (u : String) (st : ServerState) (hu : u ≠ "") (hv : cfg.validUrl u = true) :
    shortenHandler cfg cands now (some u) st =
      if maxAttempts ≤ (genLoop st.store cands 0 maxAttempts).2
      then (.err 500 "Failed to generate unique short code", st)
      else (.okShorten (genLoop st.store cands 0 maxAttempts).1
              (cfg.baseUrl ++ "/" ++ (genLoop st.store cands 0 maxAttempts).1) u,
            { st with store := st.store ++ [⟨(genLoop st.store cands 0 maxAttempts).1, u, now, 0⟩] }) := by
  unfold shortenHandler
  simp only [Option.getD_some]
  rw [if_neg hu, if_neg (by simp [hv])]

/-- Claim C1, counterexample: the claim asserts that a unique candidate found on
the 10th attempt is inserted with a 200 response.  In this run the first nine
candidates collide and the tenth (`"fresh"`) is unique, yet the handler
returns the 500 generation-failure response and inserts nothing: the loop
exits with `attempts = 10` and the `attempts >= maxAttempts` check fires
without looking at whether the last candidate was unique. -/
theorem claim_C1_counterexample :
    existsCode st9.store (cands9 9) = false ∧
    shortenHandler cfgDef cands9 0 (some "https://example.com") st9 =
      (.err 500 "Failed to generate unique short code", st9) :=
  ⟨rfl, rfl⟩

/-- Claim C1 (amended): for every create request with a valid URL, the handler
returns the 500 generation-failure response iff the first **nine** candidate
codes all collide with stored codes (the tenth candidate is generated but its
uniqueness is never consulted); whenever some candidate among the first nine
is unique, the handler inserts the first such candidate and returns 200 with
that code. -/
theorem claim_C1_shorten_generation (cfg : Config) (cands : Nat → String) (now : Nat)
    (u : String) (st : ServerState) (hu : u ≠ "") (hv : cfg.validUrl u = true) :
    ((shortenHandler cfg cands now (some u) st).1 =
        .err 500 "Failed to generate unique short code"
      ↔ ∀ i, i < maxAttempts - 1 → existsCode st.store (cands i) = true)
    ∧ ∀ i₀, i₀ < maxAttempts - 1 → existsCode st.store (cands i₀) = false →
        (∀ j, j < i₀ → existsCode st.store (cands j) = true) →
        shortenHandler cfg cands now (some u) st =
          (.okShorten (cands i₀) (cfg.baseUrl ++ "/" ++ cands i₀) u,
           { st with store := st.store ++ [⟨cands i₀, u, now, 0⟩] }) := by
  have hM : maxAttempts = 10 := rfl
  have hred := shortenHandler_valid_eq cfg cands now u st hu hv
  constructor
  · constructor
    · intro h500
      by_contra hnall
      push_neg at hnall
      obtain ⟨i, hi, hine⟩ := hnall
      have hQ : ∃ n, n < maxAttempts - 1 ∧ existsCode st.store (cands n) = false :=
        ⟨i, hi, by simpa using hine⟩
      have hQ₀ := Nat.find_spec hQ
      have hmin : ∀ j, j < Nat.find hQ → existsCode st.store (cands j) = true := by
        intro j hj
        have hnq := Nat.find_min hQ hj
        rcases Decidable.not_and_iff_or_not.mp hnq with h1 | h2
        · exact absurd (lt_trans hj hQ₀.1) h1
        · simpa using h2
      have hgl := genLoop_first_fresh st.store cands (Nat.find hQ) hQ₀.1 hQ₀.2 hmin
        maxAttempts 0 (by omega) (Nat.zero_le _)
      rw [hred] at h500
      have hlt : ¬ (maxAttempts ≤ (genLoop st.store cands 0 maxAttempts).2) := by
        rw [hgl]; show ¬ (maxAttempts ≤ Nat.find hQ + 1); omega
      rw [if_neg hlt] at h500
      exact absurd h500 (by simp)
    · intro hall
      have hgl := genLoop_all_collide st.store cands maxAttempts 0 (by omega) (by omega)
        (fun i _ hi2 => hall i hi2)
      have hge : maxAttempts ≤ (genLoop st.store cands 0 maxAttempts).2 := by
        rw [hgl]
      rw [hred, if_pos hge]
  · intro i₀ hi₀ hfresh hprev
    have hgl := genLoop_first_fresh st.store cands i₀ hi₀ hfresh hprev
      maxAttempts 0 (by omega) (Nat.zero_le _)
    have hlt : ¬ (maxAttempts ≤ (genLoop st.store cands 0 maxAttempts).2) := by
      rw [hgl]; show ¬ (maxAttempts ≤ i₀ + 1); omega
    rw [hred, if_neg hlt, hgl]

/-- Witness for C1: a concrete run where the third candidate is the first
unique one, instantiating the amended theorem. -/
theorem claim_C1_witness :
    ((shortenHandler cfgDef cands9 0 (some "https://example.com")
          { store := [⟨"c0", "https://a.example", 0, 0⟩, ⟨"c1", "https://a.example", 0, 0⟩], validTokens := [] }).1 =
        .err 500 "Failed to generate unique short code"
      ↔ ∀ i, i < maxAttempts - 1 →
          existsCode [⟨"c0", "https://a.example", 0, 0⟩, ⟨"c1", "https://a.example", 0, 0⟩] (cands9 i) = true)
    ∧ ∀ i₀, i₀ < maxAttempts - 1 →
        existsCode [⟨"c0", "https://a.example", 0, 0⟩, ⟨"c1", "https://a.example", 0, 0⟩] (cands9 i₀) = false →
        (∀ j, j < i₀ →
          existsCode [⟨"c0", "https://a.example", 0, 0⟩, ⟨"c1", "https://a.example", 0, 0⟩] (cands9 j) = true) →
        shortenHandler cfgDef cands9 0 (some "https://example.com")
            { store := [⟨"c0", "https://a.example", 0, 0⟩, ⟨"c1", "https://a.example", 0, 0⟩], validTokens := [] } =
          (.okShorten (cands9 i₀) (cfgDef.baseUrl ++ "/" ++ cands9 i₀) "https://example.com",
           { store := [⟨"c0", "https://a.example", 0, 0⟩, ⟨"c1", "https://a.example", 0, 0⟩,
                       ⟨cands9 i₀, "https://example.com", 0, 0⟩], validTokens := [] }) :=
  claim_C1_shorten_generation cfgDef cands9 0 "https://example.com"
    { store := [⟨"c0", "https://a.example", 0, 0⟩, ⟨"c1", "https://a.example", 0, 0⟩], validTokens := [] }
    (by decide) rfl

end LinkShortener

namespace LinkShortener

/-- Claim C3: a redirect request for a code that is not in the link store
returns 404 and leaves the entire server state (rows and click counters)
unchanged. -/
theorem claim_C3_redirect_unknown (st : ServerState) (c : String) (hc : c ≠ "")
    (h : existsCode st.store c = false) :
    redirectHandler c st = (.err 404 "Short link not found", st) := by
  have hf : st.store.find? (fun l => l.short_code == c) = none := by
    unfold existsCode at h
    exact Option.not_isSome_iff_eq_none.mp (by simp [h])
  unfold redirectHandler
  rw [if_neg hc, hf]

/-- Witness for C3: looking up `"zzz"` in the one-row store. -/
theorem claim_C3_witness :
    redirectHandler "zzz" stEx = (.err 404 "Short link not found", stEx) :=
  claim_C3_redirect_unknown stEx "zzz" (by decide) rfl

/-- Claim C5: an authenticated admin-create request whose (valid) slug already
exists as a stored short code returns 409 and leaves the state unchanged. -/
theorem claim_C5_slug_conflict (cfg : Config) (now : Nat) (h : Option String)
    (u sl : String) (st : ServerState)
    (ht : validateToken h st.validTokens = true)
    (hu : u ≠ "") (hv : cfg.validUrl u = true)
    (hsl : isValidSlug sl = true) (hex : existsCode st.store sl = true) :
    adminCreateHandler cfg now h (some u) (some sl) st =
      (.err 409 "This slug is already taken", st) := by
  have hsl0 : sl ≠ "" := by
    intro e; subst e; exact absurd hsl (by decide)
  unfold adminCreateHandler
  rw [if_neg (by simp [ht])]
  simp only [Option.getD_some]
  rw [if_neg hu, if_neg (by simp [hv]), if_neg hsl0, if_neg (by simp [hsl]), if_pos hex]

/-- Witness for C5: creating slug `"abc"`, already stored in `stEx`, with the
issued token `"tok"`. -/
theorem claim_C5_witness :
    adminCreateHandler cfgDef 7 (some "Bearer tok") (some "https://other.example") (some "abc") stEx =
      (.err 409 "This slug is already taken", stEx) :=
  claim_C5_slug_conflict cfgDef 7 (some "Bearer tok") "https://other.example" "abc" stEx
    rfl (by decide) rfl rfl rfl

/-- Claim C10: token validation demands the exact `"Bearer "` prefix: a request
to an admin endpoint whose Authorization header is absent or does not start
with `"Bearer "` — including a header that is exactly a valid token with no
prefix — is rejected with 401. -/
theorem claim_C10_bearer_required (st : ServerState) (pq lq sq : Option String)
    (h : Option String) (hh : ∀ s, h = some s → strStartsWith s "Bearer " = false) :
    validateToken h st.validTokens = false
    ∧ (adminLinksHandler h pq lq sq st).1 = .err 401 "Unauthorized"
    ∧ ∀ cfg now u sl, (adminCreateHandler cfg now h u sl st).1 = .err 401 "Unauthorized" := by
  have hv : validateToken h st.validTokens = false := by
    cases h with
    | none => rfl
    | some s => simp [validateToken, hh s rfl]
  refine ⟨hv, ?_, ?_⟩
  · unfold adminLinksHandler
    rw [if_pos hv]
  · intro cfg now u sl
    unfold adminCreateHandler
    rw [if_pos hv]

/-- Witness for C10: the bare token `"tok"` is in `stEx`'s valid-token set,
yet sending it without the `"Bearer "` prefix yields 401. -/
theorem claim_C10_witness :
    validateToken (some "tok") stEx.validTokens = false
    ∧ (adminLinksHandler (some "tok") none none none stEx).1 = .err 401 "Unauthorized"
    ∧ ∀ cfg now u sl, (adminCreateHandler cfg now (some "tok") u sl stEx).1 = .err 401 "Unauthorized" :=
  claim_C10_bearer_required stEx none none none (some "tok")
    (fun s e => by cases e; decide)

end LinkShortener

namespace LinkShortener

theorem find?_incClicks (store : List Link) (code : String) (l : Link)
    (h : store.find? (fun x => x.short_code == code) = some l) :
    (incClicks code store).find? (fun x => x.short_code == code) =
      some { l with clicks := l.clicks + 1 } := by
  unfold incClicks
  rw [List.find?_map]
  have hp : ((fun x : Link => x.short_code == code) ∘
      (fun x => if x.short_code == code then { x with clicks := x.clicks + 1 } else x)) =
      (fun x : Link => x.short_code == code) := by
    funext x
    show ((if x.short_code == code then { x with clicks := x.clicks + 1 } else x).short_code
        == code) = (x.short_code == code)
    by_cases hx : (x.short_code == code) = true
    · rw [if_pos hx]
    · rw [if_neg hx]
  rw [hp, h]
  have hl := List.find?_some h
  show some (if l.short_code == code then { l with clicks := l.clicks + 1 } else l) =
    some { l with clicks := l.clicks + 1 }
  rw [if_pos hl]

theorem redirectN_find (c u : String) (t : Nat) (st : ServerState) (hc : c ≠ "") :
    ∀ k j, st.store.find? (fun l => l.short_code == c) = some ⟨c, u, t, j⟩ →
    (redirectN c st k).store.find? (fun l => l.short_code == c) = some ⟨c, u, t, j + k⟩ := by
  intro k
  induction k with
  | zero => intro j h; simpa using h
  | succ n ih =>
    intro j h
    have hn := ih j h
    show ((redirectHandler c (redirectN c st n)).2).store.find? (fun l => l.short_code == c) = _
    unfold redirectHandler
    rw [if_neg hc, hn]
    show (incClicks c (redirectN c st n).store).find? (fun l => l.short_code == c) = _
    rw [find?_incClicks _ _ _ hn]
    show some (⟨c, u, t, j + n + 1⟩ : Link) = some ⟨c, u, t, j + (n + 1)⟩
    rw [Nat.add_assoc]

/-- Claim C2: for a stored link with code `c`, URL `u` and a fresh click counter,
every one of the first `N` redirect requests for `c` responds with a 302
redirect to exactly `u`, and after `N` such redirects the stored click counter
of `c` equals `N`. -/
theorem claim_C2_redirect_clicks (st : ServerState) (c u : String) (t : Nat) (hc : c ≠ "")
    (h : st.store.find? (fun l => l.short_code == c) = some ⟨c, u, t, 0⟩) (N : Nat) :
    (∀ k, k < N → (redirectHandler c (redirectN c st k)).1 = .redirect302 u)
    ∧ (redirectN c st N).store.find? (fun l => l.short_code == c) = some ⟨c, u, t, N⟩ := by
  constructor
  · intro k _
    have hf := redirectN_find c u t st hc k 0 h
    unfold redirectHandler
    rw [if_neg hc, hf]
  · simpa using redirectN_find c u t st hc N 0 h

/-- Witness for C2: three redirects of `"abc"` in `stEx`, each 302 to the
stored URL, leaving `clicks = 3`. -/
theorem claim_C2_witness :
    (∀ k, k < 3 → (redirectHandler "abc" (redirectN "abc" stEx k)).1 =
        .redirect302 "https://example.com")
    ∧ (redirectN "abc" stEx 3).store.find? (fun l => l.short_code == "abc") =
        some ⟨"abc", "https://example.com", 5, 3⟩ :=
  claim_C2_redirect_clicks stEx "abc" "https://example.com" 5 (by decide) rfl 3

end LinkShortener

namespace LinkShortener

theorem rowsPreserved_refl (s : List Link) : rowsPreserved s s :=
  ⟨le_rfl, fun _ _ _ => ⟨rfl, rfl, rfl, le_rfl⟩⟩

theorem rowsPreserved_append (s tl : List Link) : rowsPreserved s (s ++ tl) := by
  refine ⟨by simp, fun i hi hi' => ?_⟩
  have he : (s ++ tl).get ⟨i, hi'⟩ = s.get ⟨i, hi⟩ := by
    simp [List.get_eq_getElem, List.getElem_append_left hi]
  rw [he]
  exact ⟨rfl, rfl, rfl, le_rfl⟩

theorem rowsPreserved_incClicks (c : String) (s : List Link) :
    rowsPreserved s (incClicks c s) := by
  refine ⟨by simp [incClicks], fun i hi hi' => ?_⟩
  have he : (incClicks c s).get ⟨i, hi'⟩ =
      if (s.get ⟨i, hi⟩).short_code == c
      then { s.get ⟨i, hi⟩ with clicks := (s.get ⟨i, hi⟩).clicks + 1 }
      else s.get ⟨i, hi⟩ := by
    simp [incClicks, List.get_eq_getElem]
  rw [he]
  by_cases hx : ((s.get ⟨i, hi⟩).short_code == c) = true
  · rw [if_pos hx]
    exact ⟨rfl, rfl, rfl, Nat.le_succ _⟩
  · rw [if_neg hx]
    exact ⟨rfl, rfl, rfl, le_rfl⟩

theorem map_short_code_incClicks (c : String) (s : List Link) :
    (incClicks c s).map Link.short_code = s.map Link.short_code := by
  unfold incClicks
  rw [List.map_map]
  apply List.map_congr_left
  intro x _
  show (if x.short_code == c then { x with clicks := x.clicks + 1 } else x).short_code =
    x.short_code
  by_cases hx : (x.short_code == c) = true
  · rw [if_pos hx]
  · rw [if_neg hx]

theorem codesNodup_append (s : List Link) (r : Link)
    (hnd : codesNodup s) (hfresh : existsCode s r.short_code = false) :
    codesNodup (s ++ [r]) := by
  unfold codesNodup at *
  rw [List.map_append, List.nodup_append]
  refine ⟨hnd, List.nodup_singleton _, ?_⟩
  intro a ha hb
  have hb' : a = r.short_code := by simpa using hb
  subst hb'
  rcases List.mem_map.mp ha with ⟨l, hl, he⟩
  exact (existsCode_eq_false_iff s r.short_code).mp hfresh l hl he

theorem codesNodup_incClicks (c : String) (s : List Link) (hnd : codesNodup s) :
    codesNodup (incClicks c s) := by
  unfold codesNodup at *
  rw [map_short_code_incClicks]
  exact hnd

/-- Claim C4: every request handler preserves the link-store invariant: short
codes stay pairwise distinct, existing rows are never deleted and keep their
`short_code`, `original_url` and `created_at`, and click counters never
decrease (the only mutation being the redirect increment). -/
theorem claim_C4_invariants (cfg : Config) (op : Op) (st : ServerState)
    (hnd : codesNodup st.store) :
    rowsPreserved st.store (step cfg op st).2.store
    ∧ codesNodup (step cfg op st).2.store := by
  have hM : maxAttempts = 10 := rfl
  cases op with
  | rootReq => exact ⟨rowsPreserved_refl _, hnd⟩
  | authReq tk pw =>
    simp only [step, adminAuthHandler]
    split
    · exact ⟨rowsPreserved_refl _, hnd⟩
    · exact ⟨rowsPreserved_refl _, hnd⟩
  | statsReq c =>
    simp only [step, statsHandler]
    split
    · exact ⟨rowsPreserved_refl _, hnd⟩
    · split
      · exact ⟨rowsPreserved_refl _, hnd⟩
      · exact ⟨rowsPreserved_refl _, hnd⟩
  | listReq h pq lq sq =>
    simp only [step, adminLinksHandler]
    split
    · exact ⟨rowsPreserved_refl _, hnd⟩
    · split
      · split
        · exact ⟨rowsPreserved_refl _, hnd⟩
        · exact ⟨rowsPreserved_refl _, hnd⟩
      · exact ⟨rowsPreserved_refl _, hnd⟩
  | redirectReq c =>
    simp only [step, redirectHandler]
    split
    · exact ⟨rowsPreserved_refl _, hnd⟩
    · split
      · exact ⟨rowsPreserved_refl _, hnd⟩
      · exact ⟨rowsPreserved_incClicks c st.store, codesNodup_incClicks c st.store hnd⟩
  | shortenReq cands now url =>
    simp only [step, shortenHandler]
    split
    · exact ⟨rowsPreserved_refl _, hnd⟩
    · split
      · exact ⟨rowsPreserved_refl _, hnd⟩
      · split
        · exact ⟨rowsPreserved_refl _, hnd⟩
        · next hle =>
          have hfresh : existsCode st.store (genLoop st.store cands 0 maxAttempts).1 = false :=
            genLoop_fresh_of_success st.store cands maxAttempts 0 (by omega) (by omega)
              (by omega)
          exact ⟨rowsPreserved_append _ _, codesNodup_append _ _ hnd hfresh⟩
  | createReq now h u sl =>
    simp only [step, adminCreateHandler]
    split
    · exact ⟨rowsPreserved_refl _, hnd⟩
    · split
      · exact ⟨rowsPreserved_refl _, hnd⟩
      · split
        · exact ⟨rowsPreserved_refl _, hnd⟩
        · split
          · exact ⟨rowsPreserved_refl _, hnd⟩
          · split
            · exact ⟨rowsPreserved_refl _, hnd⟩
            · split
              · exact ⟨rowsPreserved_refl _, hnd⟩
              · next hex =>
                have hfresh : existsCode st.store ((sl.getD "")) = false := by
                  cases hb : existsCode st.store (sl.getD "") with
                  | false => rfl
                  | true => exact absurd (by simpa using hb) hex
                exact ⟨rowsPreserved_append _ _, codesNodup_append _ _ hnd hfresh⟩

/-- Witness for C4: a redirect request against the one-row store `stEx`. -/
theorem claim_C4_witness :
    rowsPreserved stEx.store (step cfgDef (Op.redirectReq "abc") stEx).2.store
    ∧ codesNodup (step cfgDef (Op.redirectReq "abc") stEx).2.store :=
  claim_C4_invariants cfgDef (Op.redirectReq "abc") stEx (by unfold codesNodup; decide)

end LinkShortener

namespace LinkShortener

theorem validateToken_bearer_iff (h : String) (toks : List String) :
    validateToken (some h) toks = true ↔ ∃ t ∈ toks, h = "Bearer " ++ t := by
  show (strStartsWith h "Bearer " && toks.contains (strDrop h 7)) = true ↔ _
  rw [Bool.and_eq_true]
  constructor
  · rintro ⟨hpre, hcont⟩
    have hp : "Bearer ".data <+: h.data :=
      List.isPrefixOf_iff_prefix.mp hpre
    obtain ⟨r, hr⟩ := hp
    have hdrop : h.data.drop 7 = r := by
      rw [← hr]
      exact List.drop_left "Bearer ".data r
    refine ⟨strDrop h 7, by simpa using hcont, ?_⟩
    apply String.ext
    rw [String.data_append]
    show h.data = "Bearer ".data ++ (h.data.drop 7)
    rw [hdrop, hr]
  · rintro ⟨t, htm, rfl⟩
    have hdata : ("Bearer " ++ t).data = "Bearer ".data ++ t.data := String.data_append _ _
    constructor
    · apply List.isPrefixOf_iff_prefix.mpr
      rw [hdata]
      exact ⟨t.data, rfl⟩
    · have : strDrop ("Bearer " ++ t) 7 = t := by
        apply String.ext
        show ("Bearer " ++ t).data.drop 7 = t.data
        rw [hdata]
        exact List.drop_left "Bearer ".data t.data
      rw [this]
      simpa using htm

theorem step_tokens_mem (cfg : Config) (op : Op) (st : ServerState) (t : String) :
    t ∈ (step cfg op st).2.validTokens ↔
      t ∈ st.validTokens ∨
      ∃ tk pw, op = Op.authReq tk pw ∧ pw = some cfg.adminPw ∧ t = tk := by
  cases op with
  | authReq tk pw =>
    simp only [step, adminAuthHandler]
    by_cases hpw : pw = some cfg.adminPw
    · rw [if_pos hpw]
      show t ∈ st.validTokens.insert tk ↔ _
      rw [List.mem_insert_iff]
      constructor
      · rintro (rfl | hm)
        · exact Or.inr ⟨t, pw, rfl, hpw, rfl⟩
        · exact Or.inl hm
      · rintro (hm | ⟨tk', pw', he, hpw', rfl⟩)
        · exact Or.inr hm
        · cases he
          exact Or.inl rfl
    · rw [if_neg hpw]
      simp [hpw]
  | shortenReq cands now url =>
    simp only [step, shortenHandler]
    split
    · simp
    · split
      · simp
      · split
        · simp
        · simp
  | createReq now h u sl =>
    simp only [step, adminCreateHandler]
    split
    · simp
    · split
      · simp
      · split
        · simp
        · split
          · simp
          · split
            · simp
            · split
              · simp
              · simp
  | redirectReq c =>
    simp only [step, redirectHandler]
    split
    · simp
    · split
      · simp
      · simp
  | statsReq c =>
    simp only [step, statsHandler]
    split
    · simp
    · split
      · simp
      · simp
  | listReq h pq lq sq =>
    simp only [step, adminLinksHandler]
    split
    · simp
    · split
      · split
        · simp
        · simp
      · simp
  | rootReq => simp [step]

theorem issuedTokens_mem_cons (cfg : Config) (op : Op) (ops : List Op) (t : String) :
    t ∈ issuedTokens cfg (op :: ops) ↔
      (∃ tk pw, op = Op.authReq tk pw ∧ pw = some cfg.adminPw ∧ t = tk)
      ∨ t ∈ issuedTokens cfg ops := by
  cases op with
  | authReq tk pw =>
    by_cases hpw : pw = some cfg.adminPw
    · have hcons : issuedTokens cfg (Op.authReq tk pw :: ops) = tk :: issuedTokens cfg ops := by
        simp [issuedTokens, List.filterMap_cons, hpw]
      rw [hcons, List.mem_cons]
      constructor
      · rintro (rfl | hm)
        · exact Or.inl ⟨t, pw, rfl, hpw, rfl⟩
        · exact Or.inr hm
      · rintro (⟨tk', pw', he, hpw', rfl⟩ | hm)
        · cases he
          exact Or.inl rfl
        · exact Or.inr hm
    · have hcons : issuedTokens cfg (Op.authReq tk pw :: ops) = issuedTokens cfg ops := by
        simp [issuedTokens, List.filterMap_cons, hpw]
      rw [hcons]
      constructor
      · exact Or.inr
      · rintro (⟨tk', pw', he, hpw', rfl⟩ | hm)
        · cases he
          exact absurd hpw' hpw
        · exact hm
  | shortenReq cands now url => simp [issuedTokens, List.filterMap_cons]
  | createReq now h u sl => simp [issuedTokens, List.filterMap_cons]
  | redirectReq c => simp [issuedTokens, List.filterMap_cons]
  | statsReq c => simp [issuedTokens, List.filterMap_cons]
  | listReq h pq lq sq => simp [issuedTokens, List.filterMap_cons]
  | rootReq => simp [issuedTokens, List.filterMap_cons]

theorem mem_runTrace_tokens (cfg : Config) (ops : List Op) :
    ∀ (st : ServerState) (t : String),
    t ∈ (runTrace cfg ops st).validTokens ↔
      t ∈ st.validTokens ∨ t ∈ issuedTokens cfg ops := by
  induction ops with
  | nil =>
    intro st t
    simp [runTrace, issuedTokens]
  | cons op ops ih =>
    intro st t
    rw [show runTrace cfg (op :: ops) st = runTrace cfg ops (step cfg op st).2 from rfl,
      ih, step_tokens_mem, issuedTokens_mem_cons]
    exact or_assoc

/-- Claim C6: bearer-token authentication: a header is accepted exactly when it
is `"Bearer " ++ t` for a token `t` in the valid-token set; both admin
endpoints answer 401 exactly when validation fails; and starting from an
empty token set, the valid-token set after any request trace is exactly the
set of tokens returned by successful `/admin/auth` logins in that trace
(tokens are never expired, rotated or revoked). -/
theorem claim_C6_token_auth (cfg : Config) :
    (∀ (h : String) (toks : List String),
        validateToken (some h) toks = true ↔ ∃ t ∈ toks, h = "Bearer " ++ t)
    ∧ (∀ now h u sl st, (adminCreateHandler cfg now h u sl st).1 = .err 401 "Unauthorized" ↔
        validateToken h st.validTokens = false)
    ∧ (∀ h pq lq sq st, (adminLinksHandler h pq lq sq st).1 = .err 401 "Unauthorized" ↔
        validateToken h st.validTokens = false)
    ∧ (∀ ops s0 t, t ∈ (runTrace cfg ops ⟨s0, []⟩).validTokens ↔ t ∈ issuedTokens cfg ops) := by
  refine ⟨validateToken_bearer_iff, ?_, ?_, ?_⟩
  · intro now h u sl st
    cases hv : validateToken h st.validTokens with
    | false =>
      apply iff_of_true _ rfl
      unfold adminCreateHandler
      rw [if_pos hv]
    | true =>
      apply iff_of_false
      · intro he
        simp only [adminCreateHandler] at he
        rw [if_neg (by rw [hv]; simp)] at he
        split at he
        · simp at he
        · split at he
          · simp at he
          · split at he
            · simp at he
            · split at he
              · simp at he
              · split at he
                · simp at he
                · simp at he
      · simp [hv]
  · intro h pq lq sq st
    cases hv : validateToken h st.validTokens with
    | false =>
      apply iff_of_true _ rfl
      unfold adminLinksHandler
      rw [if_pos hv]
    | true =>
      apply iff_of_false
      · intro he
        simp only [adminLinksHandler] at he
        rw [if_neg (by rw [hv]; simp)] at he
        split at he
        · split at he
          · simp at he
          · simp at he
        · simp at he
      · simp [hv]
  · intro ops s0 t
    rw [mem_runTrace_tokens]
    show t ∈ ([] : List String) ∨ _ ↔ _
    simp

end LinkShortener

namespace LinkShortener

theorem isSlugChar_iff (c : Char) : isSlugChar c = true ↔ isSlugCharSpec c := by
  unfold isSlugChar isSlugCharSpec
  simp only [Bool.or_eq_true, Bool.and_eq_true, decide_eq_true_eq, beq_iff_eq]
  tauto

theorem isValidSlug_iff (s : String) :
    isValidSlug s = true ↔ s ≠ "" ∧ s.length ≤ 50 ∧ ∀ c ∈ s.data, isSlugCharSpec c := by
  unfold isValidSlug slugRegexTest
  rw [Bool.and_eq_true, Bool.and_eq_true, Bool.and_eq_true,
    decide_eq_true_eq, decide_eq_true_eq, List.all_eq_true, Bool.not_eq_true']
  constructor
  · rintro ⟨⟨⟨hne, hall⟩, h1⟩, h50⟩
    refine ⟨?_, h50, fun c hc => (isSlugChar_iff c).mp (hall c hc)⟩
    intro e
    subst e
    exact absurd hne (by decide)
  · rintro ⟨hne, h50, hall⟩
    have hd : s.data ≠ [] := by
      intro e
      apply hne
      apply String.ext
      rw [e]
    refine ⟨⟨⟨?_, fun c hc => (isSlugChar_iff c).mpr (hall c hc)⟩, ?_⟩, h50⟩
    · cases hb : s.data.isEmpty with
      | false => rfl
      | true => exact absurd (List.isEmpty_iff.mp hb) hd
    · exact List.length_pos.mpr hd

/-- Claim C8: the slug validator accepts exactly the nonempty strings of at most
50 characters drawn from ASCII letters, digits, hyphen and underscore; and,
given a valid token and URL, the admin-create handler responds 400 exactly
when the supplied slug fails this predicate. -/
theorem claim_C8_slug_validator :
    (∀ s : String, isValidSlug s = true ↔
      s ≠ "" ∧ s.length ≤ 50 ∧ ∀ c ∈ s.data, isSlugCharSpec c)
    ∧ ∀ (cfg : Config) (now : Nat) (h : Option String) (u : String) (slug : Option String)
        (st : ServerState), validateToken h st.validTokens = true → u ≠ "" →
        cfg.validUrl u = true →
        (respStatus (adminCreateHandler cfg now h (some u) slug st).1 = 400 ↔
          isValidSlug (slug.getD "") = false) := by
  refine ⟨isValidSlug_iff, ?_⟩
  intro cfg now h u slug st ht hu hv
  unfold adminCreateHandler
  rw [if_neg (by simp [ht])]
  simp only [Option.getD_some]
  rw [if_neg hu, if_neg (by simp [hv])]
  by_cases hsl0 : slug.getD "" = ""
  · rw [if_pos hsl0, hsl0]
    exact iff_of_true rfl (by decide)
  · rw [if_neg hsl0]
    by_cases hval : isValidSlug (slug.getD "") = false
    · rw [if_pos hval]
      exact iff_of_true rfl hval
    · rw [if_neg hval]
      apply iff_of_false
      · by_cases hex : existsCode st.store (slug.getD "") = true
        · rw [if_pos hex]
          simp [respStatus]
        · rw [if_neg hex]
          simp [respStatus]
      · exact hval

/-- Witness for C8: a slug with a space and a bang is rejected with 400 by an
authenticated create request. -/
theorem claim_C8_witness :
    respStatus (adminCreateHandler cfgDef 0 (some "Bearer tok")
        (some "https://example.com") (some "bad slug!") stEx).1 = 400 ↔
      isValidSlug "bad slug!" = false :=
  claim_C8_slug_validator.2 cfgDef 0 (some "Bearer tok") "https://example.com"
    (some "bad slug!") stEx rfl (by decide) rfl

theorem adminLinksHandler_parsed (h pq lq sq : Option String) (st : ServerState)
    (p l : Int) (ht : validateToken h st.validTokens = true)
    (hp : parseIntJs (orDefault pq "1") = some p)
    (hl : parseIntJs (orDefault lq "50") = some l) :
    adminLinksHandler h pq lq sq st =
      if p < 1 ∨ l < 1 then (.err 400 "Invalid pagination parameters", st)
      else (.okList (((sortByCreatedDesc (filterLinks (orDefault sq "") st.store)).drop
              ((p.toNat - 1) * l.toNat)).take l.toNat)
            p.toNat l.toNat (filterLinks (orDefault sq "") st.store).length
            (mathCeilDiv (filterLinks (orDefault sq "") st.store).length l.toNat)
            (filterLinks (orDefault sq "") st.store).length (sumClicks st.store), st) := by
  unfold adminLinksHandler
  rw [if_neg (by simp [ht]), hp, hl]

theorem adminLinksHandler_nan_page (h pq lq sq : Option String) (st : ServerState)
    (ht : validateToken h st.validTokens = true)
    (hp : parseIntJs (orDefault pq "1") = none) :
    adminLinksHandler h pq lq sq st = (.err 400 "Invalid pagination parameters", st) := by
  unfold adminLinksHandler
  rw [if_neg (by simp [ht]), hp]

theorem adminLinksHandler_nan_limit (h pq lq sq : Option String) (st : ServerState)
    (p : Int) (ht : validateToken h st.validTokens = true)
    (hp : parseIntJs (orDefault pq "1") = some p)
    (hl : parseIntJs (orDefault lq "50") = none) :
    adminLinksHandler h pq lq sq st = (.err 400 "Invalid pagination parameters", st) := by
  unfold adminLinksHandler
  rw [if_neg (by simp [ht]), hp, hl]

/-- Claim C9: with a valid token, the admin-list endpoint answers 400 exactly
when `parseInt` of the (defaulted) page or limit parameter is `NaN` or below
1; any parameter whose longest leading digit run denotes an integer ≥ 1 —
well-formed or not — is accepted, and the returned page is computed from that
truncated value. -/
theorem claim_C9_pagination_parseInt (h pq lq sq : Option String) (st : ServerState)
    (ht : validateToken h st.validTokens = true) :
    ((adminLinksHandler h pq lq sq st).1 = .err 400 "Invalid pagination parameters" ↔
      ¬ ∃ p l : Int, parseIntJs (orDefault pq "1") = some p ∧
          parseIntJs (orDefault lq "50") = some l ∧ 1 ≤ p ∧ 1 ≤ l)
    ∧ ∀ p l : Int, parseIntJs (orDefault pq "1") = some p →
        parseIntJs (orDefault lq "50") = some l → 1 ≤ p → 1 ≤ l →
        (adminLinksHandler h pq lq sq st).1 =
          .okList (((sortByCreatedDesc (filterLinks (orDefault sq "") st.store)).drop
              ((p.toNat - 1) * l.toNat)).take l.toNat)
            p.toNat l.toNat (filterLinks (orDefault sq "") st.store).length
            (mathCeilDiv (filterLinks (orDefault sq "") st.store).length l.toNat)
            (filterLinks (orDefault sq "") st.store).length (sumClicks st.store) := by
  constructor
  · cases hpp : parseIntJs (orDefault pq "1") with
    | none =>
      rw [adminLinksHandler_nan_page h pq lq sq st ht hpp]
      apply iff_of_true rfl
      rintro ⟨p, l, hp, -, -, -⟩
      exact Option.noConfusion hp
    | some p =>
      cases hll : parseIntJs (orDefault lq "50") with
      | none =>
        rw [adminLinksHandler_nan_limit h pq lq sq st p ht hpp hll]
        apply iff_of_true rfl
        rintro ⟨p', l', -, hl, -, -⟩
        exact Option.noConfusion hl
      | some l =>
        rw [adminLinksHandler_parsed h pq lq sq st p l ht hpp hll]
        by_cases hbad : p < 1 ∨ l < 1
        · rw [if_pos hbad]
          apply iff_of_true rfl
          rintro ⟨p', l', hp', hl', h1, h2⟩
          have hp2 : p = p' := Option.some.inj hp'
          have hl2 : l = l' := Option.some.inj hl'
          subst hp2
          subst hl2
          omega
        · rw [if_neg hbad]
          apply iff_of_false
          · simp
          · intro hno
            exact hno ⟨p, l, rfl, rfl, by omega, by omega⟩
  · intro p l hp hl hp1 hl1
    rw [adminLinksHandler_parsed h pq lq sq st p l ht hp hl, if_neg (by omega)]

/-- Witness for C9: `page=2.9` and `limit=3abc` are not well-formed integers,
yet the request succeeds with page 2 and limit 3. -/
theorem claim_C9_witness :
    (adminLinksHandler (some "Bearer tok") (some "2.9") (some "3abc") none stEx).1 =
      .okList (((sortByCreatedDesc (filterLinks (orDefault none "") stEx.store)).drop
          (((2 : Int).toNat - 1) * (3 : Int).toNat)).take (3 : Int).toNat)
        (2 : Int).toNat (3 : Int).toNat (filterLinks (orDefault none "") stEx.store).length
        (mathCeilDiv (filterLinks (orDefault none "") stEx.store).length (3 : Int).toNat)
        (filterLinks (orDefault none "") stEx.store).length (sumClicks stEx.store) :=
  (claim_C9_pagination_parseInt (some "Bearer tok") (some "2.9") (some "3abc") none stEx
    rfl).2 2 3 rfl rfl (by decide) (by decide)

end LinkShortener

namespace LinkShortener

theorem mathCeilDiv_eq (a b : Nat) (hb : 0 < b) :
    mathCeilDiv a b = (a + b - 1) / b := by
  rcases Nat.eq_zero_or_pos a with rfl | ha
  · have h1 : mathCeilDiv 0 b = 0 := by
      rw [mathCeilDiv]
      norm_num
    rw [h1]
    exact (Nat.div_eq_of_lt (by omega)).symm
  · have hb' : (0:ℚ) < (b:ℚ) := by exact_mod_cast hb
    have hn0 : (a + b - 1) / b ≠ 0 := by
      have h1 : 1 ≤ (a + b - 1) / b := (Nat.le_div_iff_mul_le hb).mpr (by omega)
      omega
    rw [mathCeilDiv, Nat.ceil_eq_iff hn0]
    have hdm := Nat.div_add_mod (a + b - 1) b
    have hmod := Nat.mod_lt (a + b - 1) hb
    constructor
    · rw [lt_div_iff₀ hb']
      have hlt : ((a + b - 1) / b - 1) * b < a := by
        rw [Nat.sub_mul, one_mul, Nat.mul_comm ((a + b - 1) / b) b]
        generalize hMM : b * ((a + b - 1) / b) = M at hdm ⊢
        omega
      exact_mod_cast hlt
    · rw [div_le_iff₀ hb']
      have hle : a ≤ ((a + b - 1) / b) * b := by
        rw [Nat.mul_comm ((a + b - 1) / b) b]
        generalize hMM : b * ((a + b - 1) / b) = M at hdm ⊢
        omega
      exact_mod_cast hle

theorem sortByCreatedDesc_sorted (s : List Link) :
    List.Sorted (fun a b => b.created_at ≤ a.created_at) (sortByCreatedDesc s) := by
  have htrans : ∀ a b c : Link, byCreatedDesc a b = true → byCreatedDesc b c = true →
      byCreatedDesc a c = true := by
    intro a b c hab hbc
    unfold byCreatedDesc at *
    simp only [decide_eq_true_eq] at *
    omega
  have htotal : ∀ a b : Link, (byCreatedDesc a b || byCreatedDesc b a) = true := by
    intro a b
    unfold byCreatedDesc
    simp only [Bool.or_eq_true, decide_eq_true_eq]
    omega
  have hpair := @List.sorted_mergeSort Link byCreatedDesc htrans htotal s
  unfold sortByCreatedDesc
  exact hpair.imp (fun hab => by simpa [byCreatedDesc] using hab)

theorem sorted_take_drop (s : List Link) (off lim : Nat) :
    List.Sorted (fun a b => b.created_at ≤ a.created_at)
      (((sortByCreatedDesc s).drop off).take lim) := by
  have hsub : (((sortByCreatedDesc s).drop off).take lim).Sublist (sortByCreatedDesc s) :=
    (List.take_sublist _ _).trans (List.drop_sublist _ _)
  exact List.Pairwise.sublist hsub (sortByCreatedDesc_sorted s)

/-- Claim C7: for an authenticated admin-list request whose page and limit
parse to `p ≥ 1` and `L ≥ 1`, the handler reports `total = T` (the count of
records after the search filter) and `totalPages = ⌈T / L⌉` (equal to the
usual `(T + L - 1) / L`), and the returned page is the filtered records
sorted by creation time descending with the first `(p - 1) * L` skipped and
at most `L` records kept. -/
theorem claim_C7_pagination (h pq lq sq : Option String) (st : ServerState) (p l : Int)
    (ht : validateToken h st.validTokens = true)
    (hp : parseIntJs (orDefault pq "1") = some p)
    (hl : parseIntJs (orDefault lq "50") = some l)
    (hp1 : 1 ≤ p) (hl1 : 1 ≤ l) :
    (adminLinksHandler h pq lq sq st).1 =
      .okList (((sortByCreatedDesc (filterLinks (orDefault sq "") st.store)).drop
          ((p.toNat - 1) * l.toNat)).take l.toNat)
        p.toNat l.toNat (filterLinks (orDefault sq "") st.store).length
        (mathCeilDiv (filterLinks (orDefault sq "") st.store).length l.toNat)
        (filterLinks (orDefault sq "") st.store).length (sumClicks st.store)
    ∧ (((sortByCreatedDesc (filterLinks (orDefault sq "") st.store)).drop
          ((p.toNat - 1) * l.toNat)).take l.toNat).length ≤ l.toNat
    ∧ List.Sorted (fun a b => b.created_at ≤ a.created_at)
        (((sortByCreatedDesc (filterLinks (orDefault sq "") st.store)).drop
            ((p.toNat - 1) * l.toNat)).take l.toNat)
    ∧ mathCeilDiv (filterLinks (orDefault sq "") st.store).length l.toNat =
        ((filterLinks (orDefault sq "") st.store).length + l.toNat - 1) / l.toNat := by
  refine ⟨?_, List.length_take_le _ _, sorted_take_drop _ _ _,
    mathCeilDiv_eq _ _ (by omega)⟩
  rw [adminLinksHandler_parsed h pq lq sq st p l ht hp hl, if_neg (by omega)]

/-- Witness for C7: page 2 with limit 2 over the three-row store `st3`. -/
theorem claim_C7_witness :
    (adminLinksHandler (some "Bearer tok") (some "2") (some "2") none st3).1 =
      .okList (((sortByCreatedDesc (filterLinks (orDefault none "") st3.store)).drop
          (((2 : Int).toNat - 1) * (2 : Int).toNat)).take (2 : Int).toNat)
        (2 : Int).toNat (2 : Int).toNat (filterLinks (orDefault none "") st3.store).length
        (mathCeilDiv (filterLinks (orDefault none "") st3.store).length (2 : Int).toNat)
        (filterLinks (orDefault none "") st3.store).length (sumClicks st3.store)
    ∧ (((sortByCreatedDesc (filterLinks (orDefault none "") st3.store)).drop
          (((2 : Int).toNat - 1) * (2 : Int).toNat)).take (2 : Int).toNat).length ≤ (2 : Int).toNat
    ∧ List.Sorted (fun a b => b.created_at ≤ a.created_at)
        (((sortByCreatedDesc (filterLinks (orDefault none "") st3.store)).drop
            (((2 : Int).toNat - 1) * (2 : Int).toNat)).take (2 : Int).toNat)
    ∧ mathCeilDiv (filterLinks (orDefault none "") st3.store).length (2 : Int).toNat =
        ((filterLinks (orDefault none "") st3.store).length + (2 : Int).toNat - 1) / (2 : Int).toNat :=
  claim_C7_pagination (some "Bearer tok") (some "2") (some "2") none st3 2 2
    rfl rfl rfl (by decide) (by decide)

end LinkShortener
